import Mathlib

/-!
Shallow embedding of the core pipeline of `claude-dashboard-custom`
(`src/claude_dashboard/{models,parser,calculator}.py`) and proofs of the
specification claims about it.

Modelling conventions:
* Python `float` pricing/cost arithmetic is embedded as exact rational
  arithmetic (`ℚ`); all claims are about which constants are returned and
  about the algebraic form of the formulas, not about rounding.
* Python `datetime` values are embedded as integers (`Timestamp := Int`,
  thought of as seconds); `timedelta(days=d)` is `d * 86400`.
* `datetime.now()` is passed explicitly as a `now : Timestamp` argument to
  the functions that call it (`filter_by_period`, `aggregate_stats`).
* Python `dict` values are embedded as association lists with unique keys,
  preserving insertion order; `lookupIn` is the embedding of `d[k]` /
  `k in d`.
* `str.lower` is embedded as ASCII lowercasing (model identifiers are
  ASCII), and `needle in hay` as the executable substring test `hasSubstr`.
-/

abbrev Timestamp := Int

/-- Embedding of Python dict lookup `d.get(k)` over an association list. -/
def lookupIn {α : Type} : List (String × α) → String → Option α
  | [], _ => none
  | (k, v) :: rest, key => if key = k then some v else lookupIn rest key

/-- `takesLead needle hay = true` iff `needle` is an initial segment of `hay`. -/
def takesLead : List Char → List Char → Bool
  | [], _ => true
  | _ :: _, [] => false
  | a :: as, b :: bs => a = b && takesLead as bs

/-- `subIn needle hay = true` iff `needle` occurs contiguously in `hay`. -/
def subIn : List Char → List Char → Bool
  | needle, [] => needle.isEmpty
  | needle, c :: rest => takesLead needle (c :: rest) || subIn needle rest

/-- Embedding of Python `needle in hay` on strings. -/
def hasSubstr (hay needle : String) : Bool :=
  subIn needle.data hay.data

/-- Embedding of Python `s.lower()` (ASCII range). -/
def asciiLower (s : String) : String :=
  ⟨s.data.map Char.toLower⟩

/-- `models.py` `TokenUsage`: token usage from a single API call. -/
structure TokenUsage where
  input_tokens : Int := 0
  output_tokens : Int := 0
  cache_creation_input_tokens : Int := 0
  cache_read_input_tokens : Int := 0
  deriving DecidableEq

/-- `TokenUsage.total_tokens`. -/
def TokenUsage.total_tokens (u : TokenUsage) : Int :=
  u.input_tokens + u.output_tokens +
    u.cache_creation_input_tokens + u.cache_read_input_tokens

/-- `models.py` `UsageEntry`: a single usage entry from JSONL. -/
structure UsageEntry where
  timestamp : Timestamp
  session_id : String
  model : String
  usage : TokenUsage
  deriving DecidableEq

/-- `models.py` `ModelStats`: aggregated stats for one model. -/
structure ModelStats where
  model : String
  total_input : Int := 0
  total_output : Int := 0
  total_cache_create : Int := 0
  total_cache_read : Int := 0
  call_count : Nat := 0
  deriving DecidableEq

/-- `ModelStats.add_usage` (returns the updated accumulator). -/
def ModelStats.add_usage (s : ModelStats) (u : TokenUsage) : ModelStats :=
  { s with
    total_input := s.total_input + u.input_tokens
    total_output := s.total_output + u.output_tokens
    total_cache_create := s.total_cache_create + u.cache_creation_input_tokens
    total_cache_read := s.total_cache_read + u.cache_read_input_tokens
    call_count := s.call_count + 1 }

/-- `ModelStats.total_tokens`. -/
def ModelStats.total_tokens (s : ModelStats) : Int :=
  s.total_input + s.total_output + s.total_cache_create + s.total_cache_read

/-- `models.py` `PeriodStats`: stats for a time period.  The `models` dict
is an insertion-ordered association list with unique keys. -/
structure PeriodStats where
  start : Timestamp
  end_ : Timestamp
  models : List (String × ModelStats) := []
  session_count : Nat := 0
  deriving DecidableEq

/-- `PeriodStats.total_tokens`: sum over `models.values()`. -/
def PeriodStats.total_tokens (p : PeriodStats) : Int :=
  (p.models.map (fun kv => kv.2.total_tokens)).sum

/-- `PeriodStats.total_calls`: sum over `models.values()`. -/
def PeriodStats.total_calls (p : PeriodStats) : Nat :=
  (p.models.map (fun kv => kv.2.call_count)).sum

/-- `calculator.py` `ModelPricing`: pricing per million tokens. -/
structure ModelPricing where
  input : ℚ
  output : ℚ
  cache_create : ℚ
  cache_read : ℚ
  deriving DecidableEq

/-- `calculator.py` `PRICING`: the static exact-match pricing table. -/
def PRICING : List (String × ModelPricing) :=
  [ ("claude-opus-4-5-20251101", ⟨15, 75, 18.75, 1.5⟩),
    ("claude-3-opus-20240229", ⟨15, 75, 18.75, 1.5⟩),
    ("claude-sonnet-4-5-20250929", ⟨3, 15, 3.75, 0.3⟩),
    ("claude-3-5-sonnet-20241022", ⟨3, 15, 3.75, 0.3⟩),
    ("claude-3-5-sonnet-20240620", ⟨3, 15, 3.75, 0.3⟩),
    ("claude-3-sonnet-20240229", ⟨3, 15, 3.75, 0.3⟩),
    ("claude-3-5-haiku-20241022", ⟨0.25, 1.25, 0.3, 0.03⟩),
    ("claude-3-haiku-20240307", ⟨0.25, 1.25, 0.3, 0.03⟩) ]

/-- `calculator.py` plan-limit record: token ceiling, cost ceiling, call ceiling. -/
structure PlanLimit where
  tokens : Nat
  cost : ℚ
  messages : Nat
  deriving DecidableEq

/-- `calculator.py` `PLAN_LIMITS`. -/
def PLAN_LIMITS : List (String × PlanLimit) :=
  [ ("pro", ⟨19000, 18, 250⟩),
    ("max5", ⟨88000, 35, 1000⟩),
    ("max20", ⟨220000, 140, 2000⟩) ]

/-- `calculator.py` `get_pricing`: exact lookup with substring fallback. -/
def get_pricing (model : String) : ModelPricing :=
  match lookupIn PRICING model with
  | some p => p
  | none =>
    let model_lower := asciiLower model
    if hasSubstr model_lower "opus" then ⟨15, 75, 18.75, 1.5⟩
    else if hasSubstr model_lower "haiku" then ⟨0.25, 1.25, 0.3, 0.03⟩
    else ⟨3, 15, 3.75, 0.3⟩

/-- `calculator.py` `get_model_tier`. -/
def get_model_tier (model : String) : String :=
  let model_lower := asciiLower model
  if hasSubstr model_lower "opus" then "Opus"
  else if hasSubstr model_lower "haiku" then "Haiku"
  else "Sonnet"

/-- Spec-side mapping from a tier display label to that tier's per-million
rates (spec §4.4 enumerated pricing tiers); used to relate `get_pricing`
and `get_model_tier`. -/
def tierRates (tier : String) : ModelPricing :=
  if tier = "Opus" then ⟨15, 75, 18.75, 1.5⟩
  else if tier = "Haiku" then ⟨0.25, 1.25, 0.3, 0.03⟩
  else ⟨3, 15, 3.75, 0.3⟩

/-- `calculator.py` `calculate_model_cost`. -/
def calculate_model_cost (stats : ModelStats) : ℚ :=
  let pricing := get_pricing stats.model
  (stats.total_input : ℚ) / 1000000 * pricing.input
    + (stats.total_output : ℚ) / 1000000 * pricing.output
    + (stats.total_cache_create : ℚ) / 1000000 * pricing.cache_create
    + (stats.total_cache_read : ℚ) / 1000000 * pricing.cache_read

/-- `calculator.py` `calculate_period_cost`. -/
def calculate_period_cost (stats : PeriodStats) : List (String × ℚ) :=
  stats.models.map (fun kv => (kv.1, calculate_model_cost kv.2))

/-- `calculator.py` `total_cost`. -/
def total_cost (stats : PeriodStats) : ℚ :=
  ((calculate_period_cost stats).map (fun kv => kv.2)).sum

/-- The dict returned by `estimate_plan_usage`. -/
structure PlanUsage where
  plan : String
  cost_used : ℚ
  cost_limit : ℚ
  cost_percent : ℚ
  calls_used : Nat
  calls_limit : Nat
  calls_percent : ℚ
  deriving DecidableEq

/-- `calculator.py` `estimate_plan_usage`, with the global `PLAN_LIMITS`
table it reads factored out as an explicit argument. -/
def estimate_plan_usage_with (table : List (String × PlanLimit))
    (stats : PeriodStats) (plan : String) : Option PlanUsage :=
  match lookupIn table plan with
  | none => none
  | some limits =>
    let cost := total_cost stats
    some
      { plan := plan
        cost_used := cost
        cost_limit := limits.cost
        cost_percent := if 0 < limits.cost then cost / limits.cost * 100 else 0
        calls_used := stats.total_calls
        calls_limit := limits.messages
        calls_percent :=
          if 0 < limits.messages then
            (stats.total_calls : ℚ) / (limits.messages : ℚ) * 100
          else 0 }

/-- `calculator.py` `estimate_plan_usage` against the actual `PLAN_LIMITS`. -/
def estimate_plan_usage (stats : PeriodStats) (plan : String) : Option PlanUsage :=
  estimate_plan_usage_with PLAN_LIMITS stats plan

/-- The decoded `message.usage` JSON object of a log line: an association
list of integer fields (possibly with keys beyond the four token counters).
Absent ↔ `none`; the empty object is `some []`. -/
abbrev UsageDict := List (String × Int)

/-- The decoded `message` object of a log line. -/
structure MessageData where
  model : Option String
  usage : Option UsageDict

/-- The decoded top-level JSON object of a log line (only the fields
`from_dict` consumes; other fields are ignored by the code). -/
structure LineData where
  timestamp : Option String
  sessionId : Option String
  message : Option MessageData

/-- Embedding of Python `d.get(k, 0)` on a usage object. -/
def dictGetInt (d : UsageDict) (k : String) : Int :=
  (lookupIn d k).getD 0

/-- Embedding of `s.replace("Z", "+00:00")`. -/
def replaceZ (s : String) : String :=
  ⟨(s.data.map (fun c =>
      if c = 'Z' then ['+', '0', '0', ':', '0', '0'] else [c])).flatten⟩

/-- `models.py` `UsageEntry.from_dict`.  `datetime.fromisoformat` is taken
as an explicit argument `parseTs` (returning `none` where Python raises
`ValueError`); a missing `"timestamp"` key is the `KeyError` path.  Both
exceptions are caught and give `none`. -/
def UsageEntry.from_dict (parseTs : String → Option Timestamp)
    (data : LineData) : Option UsageEntry :=
  let message := data.message.getD ⟨none, none⟩
  let usage_data := message.usage.getD []
  if usage_data = [] then none
  else
    match data.timestamp with
    | none => none
    | some tsStr =>
      match parseTs (replaceZ tsStr) with
      | none => none
      | some ts =>
        some
          { timestamp := ts
            session_id := data.sessionId.getD "unknown"
            model := message.model.getD "unknown"
            usage :=
              { input_tokens := dictGetInt usage_data "input_tokens"
                output_tokens := dictGetInt usage_data "output_tokens"
                cache_creation_input_tokens :=
                  dictGetInt usage_data "cache_creation_input_tokens"
                cache_read_input_tokens :=
                  dictGetInt usage_data "cache_read_input_tokens" } }

/-- The body of the `for entry in entries` loop of `filter_by_period`:
skip an entry when a supplied lower bound exceeds its timestamp or a
supplied upper bound is below it, keep it otherwise. -/
def filterLoop (start? end? : Option Timestamp) : List UsageEntry → List UsageEntry
  | [] => []
  | entry :: rest =>
    if (match start? with | some s => decide (entry.timestamp < s) | none => false) then
      filterLoop start? end? rest
    else if (match end? with | some e => decide (e < entry.timestamp) | none => false) then
      filterLoop start? end? rest
    else
      entry :: filterLoop start? end? rest

/-- `parser.py` `filter_by_period`.  `now` is `datetime.now().astimezone()`
passed explicitly (the code evaluates it twice within the same call;
the embedding uses a single instant, as spec §9 prescribes). -/
def filter_by_period (entries : List UsageEntry) (days : Option Int)
    (start? end? : Option Timestamp) (now : Timestamp) : List UsageEntry :=
  let s := match days with | some d => some (now - d * 86400) | none => start?
  let e := match days with | some _ => some now | none => end?
  match s, e with
  | none, none => entries
  | _, _ => filterLoop s e entries

/-- One iteration of the aggregation loop on the `stats.models` dict:
`if entry.model not in stats.models: stats.models[m] = ModelStats(m)`
followed by `stats.models[m].add_usage(usage)`, expressed as a single
recursion over the association list (keys are unique). -/
def addToModels : List (String × ModelStats) → String → TokenUsage →
    List (String × ModelStats)
  | [], m, u => [(m, ModelStats.add_usage { model := m } u)]
  | (k, s) :: rest, m, u =>
    if k = m then (k, s.add_usage u) :: rest
    else (k, s) :: addToModels rest m u

/-- One iteration of the aggregation loop on the `sessions` set:
`sessions.add(entry.session_id)`, the set kept as a duplicate-free list. -/
def addSession (sessions : List String) (sid : String) : List String :=
  if sid ∈ sessions then sessions else sessions ++ [sid]

/-- One iteration of the `for entry in entries` loop of `aggregate_stats`,
acting on the pair (models dict, sessions set). -/
def aggStep (acc : List (String × ModelStats) × List String)
    (entry : UsageEntry) : List (String × ModelStats) × List String :=
  (addToModels acc.1 entry.model entry.usage,
   addSession acc.2 entry.session_id)

/-- The `for entry in entries` fold of `aggregate_stats`. -/
def aggFold (entries : List UsageEntry) :
    List (String × ModelStats) × List String :=
  entries.foldl aggStep ([], [])

/-- `parser.py` `aggregate_stats`; `now` is `datetime.now().astimezone()`
passed explicitly (it is only evaluated on empty input). -/
def aggregate_stats (entries : List UsageEntry) (now : Timestamp) : PeriodStats :=
  match entries with
  | [] => { start := now, end_ := now }
  | e :: rest =>
    let folded := aggFold (e :: rest)
    { start := e.timestamp
      end_ := ((e :: rest).getLast (List.cons_ne_nil e rest)).timestamp
      models := folded.1
      session_count := folded.2.length }

/-- Records sorted ascending by timestamp (spec's "already time-sorted"),
as an executable check on consecutive records. -/
def sortedByTsB : List UsageEntry → Bool
  | [] => true
  | [_] => true
  | a :: b :: rest =>
    decide (a.timestamp ≤ b.timestamp) && sortedByTsB (b :: rest)

/-- Records sorted ascending by timestamp. -/
def sortedByTs (entries : List UsageEntry) : Prop :=
  sortedByTsB entries = true

instance (entries : List UsageEntry) : Decidable (sortedByTs entries) :=
  inferInstanceAs (Decidable (sortedByTsB entries = true))

/-! ### Claims about the cost estimator -/

/-- C1: `get_pricing` returns the exact table entry when the model name is
a key of `PRICING`; otherwise it falls back by case-insensitive substring:
"opus" → Opus rates (15 / 75 / 18.75 / 1.50), else "haiku" → Haiku rates
(0.25 / 1.25 / 0.30 / 0.03), else the Sonnet rates (3 / 15 / 3.75 / 0.30)
as the default. -/
theorem c1_get_pricing_exact_and_fallback (model : String) :
    (∀ p, lookupIn PRICING model = some p → get_pricing model = p)
    ∧ (lookupIn PRICING model = none →
        ((hasSubstr (asciiLower model) "opus" = true →
            get_pricing model = ⟨15, 75, 18.75, 1.5⟩)
         ∧ (hasSubstr (asciiLower model) "opus" = false →
            hasSubstr (asciiLower model) "haiku" = true →
              get_pricing model = ⟨0.25, 1.25, 0.3, 0.03⟩)
         ∧ (hasSubstr (asciiLower model) "opus" = false →
            hasSubstr (asciiLower model) "haiku" = false →
              get_pricing model = ⟨3, 15, 3.75, 0.3⟩))) := by
  constructor
  · intro p hp
    simp [get_pricing, hp]
  · intro hn
    refine ⟨?_, ?_, ?_⟩ <;> intros <;> simp_all [get_pricing]

/-- Witness for C1: one concrete model per behaviour (exact table hit,
opus fallback, haiku fallback, sonnet default). -/
theorem c1_witness :
    get_pricing "claude-3-opus-20240229" = ⟨15, 75, 18.75, 1.5⟩
    ∧ get_pricing "Claude-OPUS-new" = ⟨15, 75, 18.75, 1.5⟩
    ∧ get_pricing "new-haiku-model" = ⟨0.25, 1.25, 0.3, 0.03⟩
    ∧ get_pricing "mystery-model" = ⟨3, 15, 3.75, 0.3⟩ :=
  ⟨(c1_get_pricing_exact_and_fallback _).1 _ rfl,
   ((c1_get_pricing_exact_and_fallback _).2 (by decide)).1 (by decide),
   ((c1_get_pricing_exact_and_fallback _).2 (by decide)).2.1 (by decide) (by decide),
   ((c1_get_pricing_exact_and_fallback _).2 (by decide)).2.2 (by decide) (by decide)⟩

/-- C8: `get_model_tier` always returns one of "Opus", "Haiku", "Sonnet",
and `get_pricing` always returns exactly the rates of that tier — also for
names resolved through the exact `PRICING` table, which `get_model_tier`
does not consult. -/
theorem c8_pricing_consistent_with_tier (model : String) :
    (get_model_tier model = "Opus" ∨ get_model_tier model = "Haiku"
      ∨ get_model_tier model = "Sonnet")
    ∧ get_pricing model = tierRates (get_model_tier model) := by
  by_cases h1 : model = "claude-opus-4-5-20251101"
  · subst h1; exact ⟨Or.inl (by decide), rfl⟩
  by_cases h2 : model = "claude-3-opus-20240229"
  · subst h2; exact ⟨Or.inl (by decide), rfl⟩
  by_cases h3 : model = "claude-sonnet-4-5-20250929"
  · subst h3; exact ⟨Or.inr (Or.inr (by decide)), rfl⟩
  by_cases h4 : model = "claude-3-5-sonnet-20241022"
  · subst h4; exact ⟨Or.inr (Or.inr (by decide)), rfl⟩
  by_cases h5 : model = "claude-3-5-sonnet-20240620"
  · subst h5; exact ⟨Or.inr (Or.inr (by decide)), rfl⟩
  by_cases h6 : model = "claude-3-sonnet-20240229"
  · subst h6; exact ⟨Or.inr (Or.inr (by decide)), rfl⟩
  by_cases h7 : model = "claude-3-5-haiku-20241022"
  · subst h7; exact ⟨Or.inr (Or.inl (by decide)), rfl⟩
  by_cases h8 : model = "claude-3-haiku-20240307"
  · subst h8; exact ⟨Or.inr (Or.inl (by decide)), rfl⟩
  have hn : lookupIn PRICING model = none := by
    simp [PRICING, lookupIn, h1, h2, h3, h4, h5, h6, h7, h8]
  by_cases ho : hasSubstr (asciiLower model) "opus"
  · exact ⟨Or.inl (by simp [get_model_tier, ho]),
      by simp [get_pricing, get_model_tier, tierRates, hn, ho]⟩
  by_cases hh : hasSubstr (asciiLower model) "haiku"
  · exact ⟨Or.inr (Or.inl (by simp [get_model_tier, ho, hh])),
      by simp [get_pricing, get_model_tier, tierRates, hn, ho, hh]⟩
  · exact ⟨Or.inr (Or.inr (by simp [get_model_tier, ho, hh])),
      by simp [get_pricing, get_model_tier, tierRates, hn, ho, hh]⟩

/-- C10: for a name not in the exact table containing both "opus" and
"haiku" (lowercased), the opus check wins in both `get_pricing` and
`get_model_tier`. -/
theorem c10_opus_beats_haiku (model : String)
    (h1 : lookupIn PRICING model = none)
    (h2 : hasSubstr (asciiLower model) "opus" = true)
    (_h3 : hasSubstr (asciiLower model) "haiku" = true) :
    get_pricing model = ⟨15, 75, 18.75, 1.5⟩ ∧ get_model_tier model = "Opus" := by
  refine ⟨?_, ?_⟩ <;> simp [get_pricing, get_model_tier, h1, h2]

/-- Witness for C10 at the concrete name "opus-haiku". -/
theorem c10_witness :
    get_pricing "opus-haiku" = ⟨15, 75, 18.75, 1.5⟩
    ∧ get_model_tier "opus-haiku" = "Opus" :=
  c10_opus_beats_haiku "opus-haiku" (by decide) (by decide) (by decide)

/-! ### Claims about the period filter -/

/-- Spec-side retention predicate (spec §4.2): a record is retained iff
`start ≤ timestamp ≤ end`, both bounds inclusive, checking only the
supplied sides. -/
def boundOk (start? end? : Option Timestamp) (e : UsageEntry) : Bool :=
  (match start? with | some s => decide (s ≤ e.timestamp) | none => true)
  && (match end? with | some en => decide (e.timestamp ≤ en) | none => true)

/-- The filtering loop keeps exactly the records within the inclusive
bounds, in input order. -/
theorem filterLoop_eq_filter (start? end? : Option Timestamp)
    (l : List UsageEntry) :
    filterLoop start? end? l = l.filter (boundOk start? end?) := by
  induction l with
  | nil => rfl
  | cons a rest ih =>
    rcases start? with _ | s <;> rcases end? with _ | e <;>
      simp only [filterLoop, List.filter_cons, boundOk, ih]
    · simp
    · by_cases he : e < a.timestamp
      · simp [he, not_le.mpr he]
      · simp [he, not_lt.mp he]
    · by_cases hs : a.timestamp < s
      · simp [hs, not_le.mpr hs]
      · simp [hs, not_lt.mp hs]
    · by_cases hs : a.timestamp < s
      · simp [hs, not_le.mpr hs]
      · by_cases he : e < a.timestamp
        · simp [hs, he, not_lt.mp hs, not_le.mpr he]
        · simp [hs, he, not_lt.mp hs, not_lt.mp he]

/-- C5: with no day-count and no bound, `filter_by_period` is the
identity; with bounds supplied it retains exactly the records whose
timestamp satisfies the supplied inclusive bounds, preserving input
order. -/
theorem c5_filter_inclusive_bounds (entries : List UsageEntry)
    (start? end? : Option Timestamp) (now : Timestamp) :
    filter_by_period entries none none none now = entries
    ∧ filter_by_period entries none start? end? now
        = entries.filter (boundOk start? end?) := by
  refine ⟨rfl, ?_⟩
  rcases start? with _ | s <;> rcases end? with _ | e
  · have hb : boundOk none none = fun _ => true := rfl
    simp [filter_by_period, hb]
  · exact filterLoop_eq_filter none (some e) entries
  · exact filterLoop_eq_filter (some s) none entries
  · exact filterLoop_eq_filter (some s) (some e) entries

/-- C7: filtering by any window (no bounds, a day-count, or explicit
bounds) is idempotent, `now` being the single instant at which the
day-count window is anchored. -/
theorem c7_filter_idempotent (entries : List UsageEntry) (days : Option Int)
    (start? end? : Option Timestamp) (now : Timestamp) :
    filter_by_period (filter_by_period entries days start? end? now)
        days start? end? now
      = filter_by_period entries days start? end? now := by
  rcases days with _ | d
  · rcases start? with _ | s <;> rcases end? with _ | e <;>
      simp [filter_by_period, filterLoop_eq_filter, List.filter_filter,
        Bool.and_self]
  · simp [filter_by_period, filterLoop_eq_filter, List.filter_filter,
      Bool.and_self]

/-- C9: a supplied day-count makes `filter_by_period` ignore explicit
start/end bounds entirely: the result is the same as with the day-count
alone. -/
theorem c9_days_overrides_explicit_bounds (entries : List UsageEntry)
    (d : Int) (start? end? : Option Timestamp) (now : Timestamp) :
    filter_by_period entries (some d) start? end? now
      = filter_by_period entries (some d) none none now := rfl

/-! ### Claims about the aggregator -/

/-- Sum of per-model call counts over a models dict. -/
def callSum (ms : List (String × ModelStats)) : Nat :=
  (ms.map (fun kv => kv.2.call_count)).sum

/-- Sum of per-model token totals over a models dict. -/
def tokSum (ms : List (String × ModelStats)) : Int :=
  (ms.map (fun kv => kv.2.total_tokens)).sum

theorem total_calls_eq_callSum (p : PeriodStats) :
    p.total_calls = callSum p.models := rfl

theorem total_tokens_eq_tokSum (p : PeriodStats) :
    p.total_tokens = tokSum p.models := rfl

/-- Processing one record adds exactly one call to the dict. -/
theorem addToModels_callSum (ms : List (String × ModelStats)) (m : String)
    (u : TokenUsage) : callSum (addToModels ms m u) = callSum ms + 1 := by
  induction ms with
  | nil => simp [addToModels, ModelStats.add_usage, callSum]
  | cons kv rest ih =>
    obtain ⟨k, s⟩ := kv
    by_cases hk : k = m
    · simp [addToModels, hk, ModelStats.add_usage, callSum]
      omega
    · simp only [addToModels, if_neg hk, callSum, List.map_cons, List.sum_cons]
      rw [show ((addToModels rest m u).map (fun kv => kv.2.call_count)).sum
          = callSum (addToModels rest m u) from rfl, ih]
      rw [show (rest.map (fun kv => kv.2.call_count)).sum = callSum rest from rfl]
      omega

/-- Processing one record adds exactly its total token count to the dict. -/
theorem addToModels_tokSum (ms : List (String × ModelStats)) (m : String)
    (u : TokenUsage) :
    tokSum (addToModels ms m u) = tokSum ms + u.total_tokens := by
  induction ms with
  | nil =>
    simp [addToModels, ModelStats.add_usage, tokSum, ModelStats.total_tokens,
      TokenUsage.total_tokens]
  | cons kv rest ih =>
    obtain ⟨k, s⟩ := kv
    by_cases hk : k = m
    · simp [addToModels, hk, ModelStats.add_usage, tokSum,
        ModelStats.total_tokens, TokenUsage.total_tokens]
      ring
    · simp only [addToModels, if_neg hk, tokSum, List.map_cons, List.sum_cons]
      rw [show ((addToModels rest m u).map (fun kv => kv.2.total_tokens)).sum
          = tokSum (addToModels rest m u) from rfl, ih]
      rw [show (rest.map (fun kv => kv.2.total_tokens)).sum = tokSum rest from rfl]
      ring

/-- Call-count invariant of the aggregation fold. -/
theorem aggFold_callSum (es : List UsageEntry)
    (acc : List (String × ModelStats) × List String) :
    callSum (es.foldl aggStep acc).1 = callSum acc.1 + es.length := by
  induction es generalizing acc with
  | nil => simp
  | cons e rest ih =>
    rw [List.foldl_cons, ih]
    simp [aggStep, addToModels_callSum]
    omega

/-- Token-count invariant of the aggregation fold. -/
theorem aggFold_tokSum (es : List UsageEntry)
    (acc : List (String × ModelStats) × List String) :
    tokSum (es.foldl aggStep acc).1
      = tokSum acc.1 + (es.map (fun e => e.usage.total_tokens)).sum := by
  induction es generalizing acc with
  | nil => simp
  | cons e rest ih =>
    rw [List.foldl_cons, ih]
    simp [aggStep, addToModels_tokSum]
    ring

/-- C3: for every record list, the aggregated stats have `total_calls`
equal to the list length and `total_tokens` equal to the sum of the four
token counters over all records. -/
theorem c3_aggregate_totals (entries : List UsageEntry) (now : Timestamp) :
    (aggregate_stats entries now).total_calls = entries.length
    ∧ (aggregate_stats entries now).total_tokens
        = (entries.map (fun e => e.usage.total_tokens)).sum := by
  cases entries with
  | nil =>
    exact ⟨rfl, rfl⟩
  | cons e rest =>
    constructor
    · show callSum (aggFold (e :: rest)).1 = (e :: rest).length
      rw [aggFold, aggFold_callSum]
      simp [callSum]
    · show tokSum (aggFold (e :: rest)).1
        = ((e :: rest).map (fun e => e.usage.total_tokens)).sum
      rw [aggFold, aggFold_tokSum]
      simp [tokSum]

/-- C4: on an empty record list `aggregate_stats` returns a valid
degenerate value with `start = end = now`, an empty model map, zero
session count, and zero derived totals; on a non-empty time-sorted list
it sets `start` to the first record's timestamp and `end` to the last
record's timestamp. -/
theorem c4_aggregate_start_end (now : Timestamp) :
    ((aggregate_stats [] now).start = now
      ∧ (aggregate_stats [] now).end_ = now
      ∧ (aggregate_stats [] now).models = []
      ∧ (aggregate_stats [] now).session_count = 0
      ∧ (aggregate_stats [] now).total_tokens = 0
      ∧ (aggregate_stats [] now).total_calls = 0)
    ∧ ∀ e rest, sortedByTs (e :: rest) →
        (aggregate_stats (e :: rest) now).start = e.timestamp
        ∧ (aggregate_stats (e :: rest) now).end_
            = ((e :: rest).getLast (List.cons_ne_nil e rest)).timestamp := by
  exact ⟨⟨rfl, rfl, rfl, rfl, rfl, rfl⟩, fun e rest _ => ⟨rfl, rfl⟩⟩

/-- C2: `estimate_plan_usage` returns `none` for a plan name outside
{"pro", "max5", "max20"}; for an enumerated plan it returns cost used =
the period's total cost, the plan's cost limit ($18 / $35 / $140), cost
percent = used/limit × 100 (unclamped), calls used = the period's total
calls, the plan's call limit (250 / 1000 / 2000), and the analogous calls
percent; and for any limits table whose entry has a zero cost or call
limit the corresponding percent is 0 rather than a division by zero. -/
theorem c2_estimate_plan_usage (stats : PeriodStats) (plan : String) :
    (plan ≠ "pro" → plan ≠ "max5" → plan ≠ "max20" →
      estimate_plan_usage stats plan = none)
    ∧ (∀ u, estimate_plan_usage stats plan = some u →
        u.cost_used = total_cost stats
        ∧ u.calls_used = stats.total_calls
        ∧ ((plan = "pro" ∧ u.cost_limit = 18 ∧ u.calls_limit = 250)
           ∨ (plan = "max5" ∧ u.cost_limit = 35 ∧ u.calls_limit = 1000)
           ∨ (plan = "max20" ∧ u.cost_limit = 140 ∧ u.calls_limit = 2000))
        ∧ u.cost_percent = u.cost_used / u.cost_limit * 100
        ∧ u.calls_percent = (u.calls_used : ℚ) / (u.calls_limit : ℚ) * 100)
    ∧ (∀ table lim u, lookupIn table plan = some lim → lim.cost = 0 →
        estimate_plan_usage_with table stats plan = some u →
          u.cost_percent = 0)
    ∧ (∀ table lim u, lookupIn table plan = some lim → lim.messages = 0 →
        estimate_plan_usage_with table stats plan = some u →
          u.calls_percent = 0) := by
  refine ⟨?_, ?_, ?_, ?_⟩
  · intro h1 h2 h3
    simp [estimate_plan_usage, estimate_plan_usage_with, PLAN_LIMITS,
      lookupIn, h1, h2, h3]
  · intro u hu
    by_cases h1 : plan = "pro"
    · subst h1
      simp [estimate_plan_usage, estimate_plan_usage_with, PLAN_LIMITS,
        lookupIn] at hu
      subst hu
      refine ⟨rfl, rfl, Or.inl ⟨rfl, rfl, rfl⟩, ?_, ?_⟩ <;> norm_num
    by_cases h2 : plan = "max5"
    · subst h2
      simp [estimate_plan_usage, estimate_plan_usage_with, PLAN_LIMITS,
        lookupIn] at hu
      subst hu
      refine ⟨rfl, rfl, Or.inr (Or.inl ⟨rfl, rfl, rfl⟩), ?_, ?_⟩ <;> norm_num
    by_cases h3 : plan = "max20"
    · subst h3
      simp [estimate_plan_usage, estimate_plan_usage_with, PLAN_LIMITS,
        lookupIn] at hu
      subst hu
      refine ⟨rfl, rfl, Or.inr (Or.inr ⟨rfl, rfl, rfl⟩), ?_, ?_⟩ <;> norm_num
    · simp [estimate_plan_usage, estimate_plan_usage_with, PLAN_LIMITS,
        lookupIn, h1, h2, h3] at hu
  · intro table lim u hl h0 hu
    simp only [estimate_plan_usage_with, hl, Option.some.injEq] at hu
    subst hu
    simp [h0]
  · intro table lim u hl h0 hu
    simp only [estimate_plan_usage_with, hl, Option.some.injEq] at hu
    subst hu
    simp [h0]

/-- Witness for C2: the unknown plan "enterprise" yields `none`; "pro"
resolves to the $18 / 250-call limits; a zero-limit table entry yields a
zero percent. -/
theorem c2_witness :
    estimate_plan_usage ⟨0, 0, [], 0⟩ "enterprise" = none
    ∧ (("pro" = "pro"
        ∧ (PlanUsage.mk "pro" 0 18 0 0 250 0).cost_limit = 18
        ∧ (PlanUsage.mk "pro" 0 18 0 0 250 0).calls_limit = 250)
       ∨ ("pro" = "max5"
        ∧ (PlanUsage.mk "pro" 0 18 0 0 250 0).cost_limit = 35
        ∧ (PlanUsage.mk "pro" 0 18 0 0 250 0).calls_limit = 1000)
       ∨ ("pro" = "max20"
        ∧ (PlanUsage.mk "pro" 0 18 0 0 250 0).cost_limit = 140
        ∧ (PlanUsage.mk "pro" 0 18 0 0 250 0).calls_limit = 2000))
    ∧ (PlanUsage.mk "zero" 0 0 0 0 0 0).cost_percent = 0 := by
  have hu : estimate_plan_usage ⟨0, 0, [], 0⟩ "pro"
      = some (PlanUsage.mk "pro" 0 18 0 0 250 0) := by
    simp [estimate_plan_usage, estimate_plan_usage_with, PLAN_LIMITS,
      lookupIn, total_cost, calculate_period_cost, PeriodStats.total_calls]
  have huz : estimate_plan_usage_with [("zero", ⟨0, 0, 0⟩)] ⟨0, 0, [], 0⟩ "zero"
      = some (PlanUsage.mk "zero" 0 0 0 0 0 0) := by
    simp [estimate_plan_usage_with, lookupIn, total_cost,
      calculate_period_cost, PeriodStats.total_calls]
  refine ⟨(c2_estimate_plan_usage ⟨0, 0, [], 0⟩ "enterprise").1
      (by decide) (by decide) (by decide),
    ((c2_estimate_plan_usage ⟨0, 0, [], 0⟩ "pro").2.1 _ hu).2.2.1,
    (c2_estimate_plan_usage ⟨0, 0, [], 0⟩ "zero").2.2.1
      [("zero", ⟨0, 0, 0⟩)] ⟨0, 0, 0⟩ _ (by simp [lookupIn]) rfl huz⟩

/-! ### Claim about record parsing -/

/-- C6: `UsageEntry.from_dict` yields no record when the message lacks a
usage block or the usage block is empty, and a record is constructed only
when a non-empty usage block is present; this holds for every behaviour
of the timestamp parser. -/
theorem c6_usage_gates_record (parseTs : String → Option Timestamp)
    (data : LineData) :
    ((match data.message with
      | none => True
      | some m => m.usage = none ∨ m.usage = some []) →
      UsageEntry.from_dict parseTs data = none)
    ∧ (∀ e, UsageEntry.from_dict parseTs data = some e →
        ∃ m u, data.message = some m ∧ m.usage = some u ∧ u ≠ []) := by
  rcases data with ⟨ts, sid, msg⟩
  rcases msg with _ | ⟨mdl, usage⟩
  · exact ⟨fun _ => rfl, fun e he => Option.noConfusion he⟩
  · rcases usage with _ | u
    · exact ⟨fun _ => rfl, fun e he => Option.noConfusion he⟩
    · rcases u with _ | ⟨kv, rest⟩
      · exact ⟨fun _ => rfl, fun e he => Option.noConfusion he⟩
      · constructor
        · intro h
          rcases h with h | h <;> simp at h
        · intro e _
          exact ⟨⟨mdl, some (kv :: rest)⟩, kv :: rest, rfl, rfl, by simp⟩

/-- Witness for C6: a line with an empty usage object yields no record; a
line with a non-empty usage object has a present, non-empty usage block. -/
theorem c6_witness :
    UsageEntry.from_dict (fun _ => some 0)
        ⟨some "2024-01-01T00:00:00Z", some "s", some ⟨some "m", some []⟩⟩ = none
    ∧ ∃ m u,
        (some (⟨some "m", some [("input_tokens", 5)]⟩ : MessageData) = some m)
        ∧ m.usage = some u ∧ u ≠ [] :=
  ⟨(c6_usage_gates_record (fun _ => some 0)
      ⟨some "2024-01-01T00:00:00Z", some "s", some ⟨some "m", some []⟩⟩).1
        (Or.inr rfl),
   (c6_usage_gates_record (fun _ => some 0)
      ⟨some "2024-01-01T00:00:00Z", some "s",
        some ⟨some "m", some [("input_tokens", 5)]⟩⟩).2
     ⟨0, "s", "m", ⟨5, 0, 0, 0⟩⟩ rfl⟩

/-- Witness for C4 on a concrete sorted two-record list. -/
theorem c4_witness :
    (aggregate_stats
        [⟨10, "s1", "claude-x", ⟨1, 2, 3, 4⟩⟩,
         ⟨20, "s2", "claude-x", ⟨5, 6, 7, 8⟩⟩] 0).start = 10
    ∧ (aggregate_stats
        [⟨10, "s1", "claude-x", ⟨1, 2, 3, 4⟩⟩,
         ⟨20, "s2", "claude-x", ⟨5, 6, 7, 8⟩⟩] 0).end_ = 20 := by
  have h := (c4_aggregate_start_end 0).2
    ⟨10, "s1", "claude-x", ⟨1, 2, 3, 4⟩⟩
    [⟨20, "s2", "claude-x", ⟨5, 6, 7, 8⟩⟩] (by decide)
  exact ⟨h.1, by rw [h.2]; rfl⟩
